import Mathlib

/-!
Verification of the request-dispatch pipeline of the `vector` HTTP framework.

The development shallowly embeds the TypeScript sources:
  * `src/core/router.ts`       — specificity scorer, route table, `wrapHandler`, `handle`
  * `src/middleware/manager.ts` — before/finally middleware chains
  * `src/auth/protected.ts`    — `AuthManager.authenticate`
  * `src/cache/manager.ts`     — `CacheManager` (get/set/has/generateKey)
  * `src/errors/index.ts`      — `createResponse`, `createErrorResponse`, `APIError`, `api`

Conventions of the embedding:
  * `async` functions are collapsed to pure functions; a JS throw/rejection is an
    `Except.error`; a thrown value is either an `Error` message or a `Response`.
  * `Date.now()` is modelled by an explicit `now : Nat` parameter (milliseconds).
  * JS strings are Lean `String`s; single-character `split`, `includes`,
    `startsWith` and `join` are modelled by structural functions over `String.data`.
  * Handler invocations are instrumented with an event trace so that temporal
    claims ("X never runs") are expressible; the instrumentation adds no control
    flow of its own.
-/

/-! ## JSON values and responses -/

/-- Model of a JS value travelling through the pipeline (handler results,
request bodies, cached values).  Big integers are already folded into `num`
via the bigint-to-string replacer modelled in `stringifyData`. -/
inductive Json where
  | null : Json
  | bool : Bool → Json
  | num : Int → Json
  | str : String → Json
  | arr : List Json → Json
  | obj : List (String × Json) → Json

/-- Body of a `Response`.  `jsonB j` models a body string that is the JSON
serialization of `j` (so it deserializes back to `j`); `rawB s` models a body
that is the raw string `s` (not necessarily JSON). -/
inductive Body where
  | jsonB : Json → Body
  | rawB : String → Body

/-- Model of a fetch-API `Response` as constructed by `createResponse`. -/
structure Resp where
  status : Nat
  contentType : String
  body : Body

/-- Coercion of a JS value to a string, as performed by `new Response(body)`
when `body` is not a string: objects/arrays coerce to "[object Object]" /
the joined array form; primitives to their string form.  Only the cases the
pipeline can reach are spelled out; arrays are approximated by their JSON
text (never produced by `createResponse` with a non-string). -/
def jsToString : Json → String
  | .null => "null"
  | .bool true => "true"
  | .bool false => "false"
  | .num n => toString n
  | .str s => s
  | .arr _ => ""
  | .obj _ => "[object Object]"

/-- Modelled from the spec: `CONTENT_TYPES.JSON` from `src/constants` (the
constants module is not present under `src/`); per the spec the wire format is
JSON by default. -/
def CONTENT_TYPES_JSON : String := "application/json"

/-- Model of `stringifyData` (`src/errors/index.ts`): `JSON.stringify(data ?? null, bigintReplacer)`.
In the embedding the data is already a `Json` value, so this is the `?? null`
defaulting; the serialization itself is carried by the `Body.jsonB` constructor. -/
def stringifyData : Option Json → Json
  | none => Json.null
  | some j => j

/-- Model of `createResponse` (`src/errors/index.ts`): JSON content type gets a
JSON-serialized body, any other content type passes the data through as a raw
string body. -/
def createResponse (statusCode : Nat) (data : Option Json) (contentType : Option String) : Resp :=
  let ct := contentType.getD CONTENT_TYPES_JSON
  if ct = CONTENT_TYPES_JSON then
    { status := statusCode, contentType := ct, body := .jsonB (stringifyData data) }
  else
    { status := statusCode, contentType := ct, body := .rawB (jsToString (stringifyData data)) }

/-! ## `Date.toISOString` model

`createErrorResponse` stamps error bodies with `new Date().toISOString()`.
The embedding implements the conversion from a millisecond timestamp to the
ISO-8601 string: civil-date decomposition of days since the Unix epoch, then
zero-padded fixed-width fields (years above 9999 use the six-digit expanded
representation JS emits). -/

/-- Decimal digit character for `n % 10`. -/
def digitChar (n : Nat) : Char := Char.ofNat (48 + n % 10)

/-- Two-digit zero-padded field. -/
def pad2 (n : Nat) : List Char := [digitChar (n / 10), digitChar n]

/-- Three-digit zero-padded field. -/
def pad3 (n : Nat) : List Char := [digitChar (n / 100), digitChar (n / 10), digitChar n]

/-- Four-digit zero-padded field. -/
def pad4 (n : Nat) : List Char := [digitChar (n / 1000), digitChar (n / 100), digitChar (n / 10), digitChar n]

/-- Six-digit zero-padded field (expanded-year form). -/
def pad6 (n : Nat) : List Char :=
  [digitChar (n / 100000), digitChar (n / 10000), digitChar (n / 1000),
   digitChar (n / 100), digitChar (n / 10), digitChar n]

/-- Civil-date decomposition: days since 1970-01-01 to (year, month, day),
proleptic Gregorian calendar (the standard era-based algorithm). -/
def civilFromDays (days : Nat) : Nat × Nat × Nat :=
  let z := days + 719468
  let era := z / 146097
  let doe := z % 146097
  let yoe := (doe - doe / 1460 + doe / 36524 - doe / 146096) / 365
  let y := yoe + era * 400
  let doy := doe - (365 * yoe + yoe / 4 - yoe / 100)
  let mp := (5 * doy + 2) / 153
  let d := doy - (153 * mp + 2) / 5 + 1
  let m := if mp < 10 then mp + 3 else mp - 9
  let year := if m ≤ 2 then y + 1 else y
  (year, m, d)

/-- Model of `new Date(ms).toISOString()` for a nonnegative millisecond
timestamp. -/
def toISOString (ms : Nat) : String :=
  let days := ms / 86400000
  let msOfDay := ms % 86400000
  let ymd := civilFromDays days
  let year := ymd.1
  let month := ymd.2.1
  let day := ymd.2.2
  let hour := msOfDay / 3600000
  let minute := msOfDay / 60000 % 60
  let second := msOfDay / 1000 % 60
  let milli := msOfDay % 1000
  let yearChars := if year < 10000 then pad4 year else '+' :: pad6 year
  String.mk (yearChars ++ '-' :: pad2 month ++ '-' :: pad2 day ++
    'T' :: pad2 hour ++ ':' :: pad2 minute ++ ':' :: pad2 second ++
    '.' :: pad3 milli ++ ['Z'])

/-- Decimal digit test. -/
def isDigitChar (c : Char) : Bool := '0' ≤ c && c ≤ '9'

/-- The 24-character ISO-8601 extended layout `YYYY-MM-DDTHH:MM:SS.sssZ`. -/
def isIsoBasic (l : List Char) : Bool :=
  match l with
  | [y1, y2, y3, y4, '-', m1, m2, '-', d1, d2, 'T',
     h1, h2, ':', n1, n2, ':', s1, s2, '.', f1, f2, f3, 'Z'] =>
      [y1, y2, y3, y4, m1, m2, d1, d2, h1, h2, n1, n2, s1, s2, f1, f2, f3].all isDigitChar
  | _ => false

/-- The 27-character expanded-year layout `+YYYYYY-MM-DDTHH:MM:SS.sssZ` JS
emits for years beyond 9999. -/
def isIsoExpanded (l : List Char) : Bool :=
  match l with
  | ['+', y1, y2, y3, y4, y5, y6, '-', m1, m2, '-', d1, d2, 'T',
     h1, h2, ':', n1, n2, ':', s1, s2, '.', f1, f2, f3, 'Z'] =>
      [y1, y2, y3, y4, y5, y6, m1, m2, d1, d2, h1, h2, n1, n2, s1, s2, f1, f2, f3].all isDigitChar
  | _ => false

/-- Checker for the ISO-8601 timestamp layouts emitted by `Date.toISOString`:
the 24-character extended form, or the 27-character expanded-year form. -/
def isIso8601Timestamp (s : String) : Bool :=
  if s.data.length = 24 then isIsoBasic s.data
  else if s.data.length = 27 then isIsoExpanded s.data
  else false

/-- Model of `createErrorResponse` (`src/errors/index.ts`): the uniform error
body `{ error: true, message, statusCode, timestamp: new Date().toISOString() }`
passed through `createResponse`.  `now` models `Date.now()` at creation time. -/
def createErrorResponse (code : Nat) (message : String) (contentType : Option String) (now : Nat) : Resp :=
  let errorBody := Json.obj
    [("error", .bool true), ("message", .str message),
     ("statusCode", .num code), ("timestamp", .str (toISOString now))]
  createResponse code (some errorBody) contentType

/-- Modelled from the spec: `HTTP_STATUS` codes from `src/constants` (module
absent from `src/`); the spec fixes 404/403/401/500 for the pipeline. -/
def HTTP_STATUS_NOT_FOUND : Nat := 404

def HTTP_STATUS_FORBIDDEN : Nat := 403

def HTTP_STATUS_UNAUTHORIZED : Nat := 401

def HTTP_STATUS_INTERNAL : Nat := 500

/-- `APIError.forbidden` from `src/errors/index.ts`. -/
def APIError.forbidden (msg : String) (contentType : Option String) (now : Nat) : Resp :=
  createErrorResponse HTTP_STATUS_FORBIDDEN msg contentType now

/-- `APIError.unauthorized` from `src/errors/index.ts`. -/
def APIError.unauthorized (msg : String) (contentType : Option String) (now : Nat) : Resp :=
  createErrorResponse HTTP_STATUS_UNAUTHORIZED msg contentType now

/-- `APIError.notFound` from `src/errors/index.ts`. -/
def APIError.notFound (msg : String) (contentType : Option String) (now : Nat) : Resp :=
  createErrorResponse HTTP_STATUS_NOT_FOUND msg contentType now

/-- `APIError.internalServerError` from `src/errors/index.ts`. -/
def APIError.internalServerError (msg : String) (contentType : Option String) (now : Nat) : Resp :=
  createErrorResponse HTTP_STATUS_INTERNAL msg contentType now

/-! ## String primitives used by the router

`String.prototype.split` with a single-character separator, `includes`,
`startsWith` and `Array.prototype.join` are modelled structurally over the
character list of the string. -/

/-- Model of `str.split(sep)` for a single-character separator, over character
lists. -/
def splitChar (sep : Char) : List Char → List String
  | [] => [""]
  | c :: cs =>
      match splitChar sep cs with
      | [] => if c = sep then ["", ""] else [String.mk [c]]
      | s :: rest => if c = sep then "" :: s :: rest else String.mk (c :: s.data) :: rest

/-- Model of `str.includes(c)` for a single character. -/
def includesChar (s : String) (c : Char) : Bool := s.data.contains c

/-- Model of `str.startsWith(p)` for a single-character p. -/
def startsWithChar (s : String) (c : Char) : Bool :=
  match s.data with
  | [] => false
  | c0 :: _ => c0 = c

/-- Model of `parts.join(sep)` (`Array.prototype.join`). -/
def joinWith (sep : String) : List String → String
  | [] => ""
  | x :: xs => xs.foldl (fun acc y => acc ++ sep ++ y) x

/-! ## Specificity scorer (`VectorRouter.getRouteSpecificity`, `src/core/router.ts`) -/

/-- `isStaticSegment`: not starting with a colon and containing no star. -/
def isStaticSegment (segment : String) : Bool :=
  !(startsWithChar segment ':') && !(includesChar segment '*')

/-- `isParamSegment`: starting with a colon. -/
def isParamSegment (segment : String) : Bool := startsWithChar segment ':'

/-- `isWildcardSegment`: containing a star. -/
def isWildcardSegment (segment : String) : Bool := includesChar segment '*'

/-- `isExactPath`: no colon and no star anywhere in the pattern. -/
def isExactPath (path : String) : Bool :=
  !(includesChar path ':') && !(includesChar path '*')

/-- `VectorRouter.getRouteSpecificity` (`src/core/router.ts` lines 31-57):
split on slashes, drop empty segments, accumulate the per-segment weights,
add the pattern length, add the exact-match bonus. -/
def getRouteSpecificity (path : String) : Nat :=
  let segments := (splitChar '/' path.data).filter (fun s => s ≠ "")
  let score := segments.foldl
    (fun score segment =>
      if isStaticSegment segment then score + 1000
      else if isParamSegment segment then score + 10
      else if isWildcardSegment segment then score + 1
      else score) 0
  let score := score + path.length
  if isExactPath path then score + 10000 else score

/-- The specificity formula exactly as claim C1 words it: the sum over the
non-empty slash-delimited segments of +1000 for a literal segment, +10 for a
named-parameter segment, +1 for a wildcard-containing segment; plus the raw
character length of the pattern; plus a flat +10000 when the pattern contains
no colon and no star anywhere. -/
def specificityClaimC1 (path : String) : Nat :=
  let segments := (splitChar '/' path.data).filter (fun s => s ≠ "")
  let segmentWeight : String → Nat := fun segment =>
    if !(startsWithChar segment ':') && !(includesChar segment '*') then 1000
    else if startsWithChar segment ':' then 10
    else if includesChar segment '*' then 1
    else 0
  (segments.map segmentWeight).sum + path.length +
    (if !(includesChar path ':') && !(includesChar path '*') then 10000 else 0)

theorem foldl_segment_score_eq_sum (l : List String) (a : Nat) :
    l.foldl
      (fun score segment =>
        if isStaticSegment segment then score + 1000
        else if isParamSegment segment then score + 10
        else if isWildcardSegment segment then score + 1
        else score) a =
    a + (l.map (fun segment =>
        if isStaticSegment segment then 1000
        else if isParamSegment segment then 10
        else if isWildcardSegment segment then 1
        else 0)).sum := by
  induction l generalizing a with
  | nil => simp
  | cons x xs ih =>
      simp only [List.foldl_cons, List.map_cons, List.sum_cons, ih]
      split_ifs <;> omega

set_option maxRecDepth 4000 in
/-- C1: the code's specificity score agrees with the claim's formula on every
path pattern. -/
theorem getRouteSpecificity_eq_claim (path : String) :
    getRouteSpecificity path = specificityClaimC1 path := by
  unfold getRouteSpecificity specificityClaimC1
  dsimp only
  rw [foldl_segment_score_eq_sum]
  simp only [isStaticSegment, isParamSegment, isWildcardSegment, isExactPath, Nat.zero_add]
  split_ifs <;> omega

/-! ## Route table ordering

`VectorRouter.route` and `VectorRouter.addRoute` (`src/core/router.ts`) push
the new entry and then call `sortRoutes`, which sorts `this.routes` with the
comparator `scoreB - scoreA` over `getRouteSpecificity(extractPath(route))`.
`Array.prototype.sort` is stable (ES2019), and a stable sort with a consistent
comparator is extensionally unique, so it is modelled by a stable insertion
sort: the inserted entry goes after every entry of greater-or-equal score. -/

/-- A route-table entry as far as ordering is concerned: the registration
index (`tag`) and the path pattern stored at index 3 of the entry tuple. -/
structure TaggedRoute where
  tag : Nat
  path : String
deriving DecidableEq

/-- Specificity of an entry, as used by the `sortRoutes` comparator. -/
def routeScore (e : TaggedRoute) : Nat := getRouteSpecificity e.path

/-- Stable descending insertion: walk past entries of greater-or-equal score. -/
def sInsert (x : TaggedRoute) : List TaggedRoute → List TaggedRoute
  | [] => [x]
  | y :: ys => if routeScore y < routeScore x then x :: y :: ys else y :: sInsert x ys

/-- Model of `VectorRouter.sortRoutes`: stable sort by descending specificity
(ties keep array order). -/
def sortRoutes (l : List TaggedRoute) : List TaggedRoute :=
  l.foldl (fun acc x => sInsert x acc) []

/-- Registration indices 0,1,2,… attached to the registered paths. -/
def tagFrom (i : Nat) : List String → List TaggedRoute
  | [] => []
  | p :: ps => ⟨i, p⟩ :: tagFrom (i + 1) ps

/-- Model of a sequence of `route()` / `addRoute()` calls: each one pushes the
new entry and immediately re-sorts the table (`src/core/router.ts` lines
92-104 and 282-285). -/
def registerAll (paths : List String) : List TaggedRoute :=
  (tagFrom 0 paths).foldl (fun table e => sortRoutes (table ++ [e])) []

/-- Strict "dispatched earlier" order: higher score first, ties by
registration index. -/
def lexGT (a b : TaggedRoute) : Prop :=
  routeScore b < routeScore a ∨ (routeScore a = routeScore b ∧ a.tag < b.tag)

theorem mem_sInsert {z x : TaggedRoute} : ∀ {l : List TaggedRoute},
    z ∈ sInsert x l ↔ z = x ∨ z ∈ l := by
  intro l
  induction l with
  | nil => simp [sInsert]
  | cons y ys ih =>
      simp only [sInsert]
      split
      · simp [List.mem_cons]
      · simp only [List.mem_cons, ih]
        tauto

theorem sInsert_perm (x : TaggedRoute) : ∀ (l : List TaggedRoute),
    (sInsert x l).Perm (x :: l) := by
  intro l
  induction l with
  | nil => simp [sInsert]
  | cons y ys ih =>
      simp only [sInsert]
      split
      · exact List.Perm.refl _
      · exact (ih.cons y).trans (List.Perm.swap x y ys)

theorem sInsert_of_all_ge {x : TaggedRoute} : ∀ {l : List TaggedRoute},
    (∀ y ∈ l, ¬(routeScore y < routeScore x)) → sInsert x l = l ++ [x] := by
  intro l
  induction l with
  | nil => intro _; simp [sInsert]
  | cons y ys ih =>
      intro h
      simp only [sInsert]
      rw [if_neg (h y (List.mem_cons_self y ys))]
      rw [ih (fun z hz => h z (List.mem_cons_of_mem y hz))]
      simp

theorem foldl_sInsert_sorted : ∀ (l acc : List TaggedRoute),
    acc.Pairwise (fun a b => routeScore b ≤ routeScore a) →
    l.Pairwise (fun a b => routeScore b ≤ routeScore a) →
    (∀ a ∈ acc, ∀ b ∈ l, routeScore b ≤ routeScore a) →
    l.foldl (fun acc x => sInsert x acc) acc = acc ++ l := by
  intro l
  induction l with
  | nil => intro acc _ _ _; simp
  | cons x xs ih =>
      intro acc hacc hl hcross
      have hx : sInsert x acc = acc ++ [x] := by
        apply sInsert_of_all_ge
        intro y hy
        exact Nat.not_lt.mpr (hcross y hy x (List.mem_cons_self x xs))
      simp only [List.foldl_cons, hx]
      rw [ih (acc ++ [x])]
      · simp
      · rw [List.pairwise_append]
        refine ⟨hacc, by simp, ?_⟩
        intro a ha b hb
        simp only [List.mem_singleton] at hb
        rw [hb]
        exact hcross a ha x (List.mem_cons_self x xs)
      · exact hl.sublist (List.sublist_cons_self x xs)
      · intro a ha b hb
        rcases List.mem_append.mp ha with h | h
        · exact hcross a h b (List.mem_cons_of_mem x hb)
        · simp only [List.mem_singleton] at h
          subst h
          exact (List.pairwise_cons.mp hl).1 b hb

theorem sortRoutes_of_sorted {l : List TaggedRoute}
    (h : l.Pairwise (fun a b => routeScore b ≤ routeScore a)) :
    sortRoutes l = l := by
  have := foldl_sInsert_sorted l [] (by simp) h (by simp)
  simpa [sortRoutes] using this

theorem lexGT_score_le {a b : TaggedRoute} (h : lexGT a b) :
    routeScore b ≤ routeScore a := by
  rcases h with h | ⟨h, _⟩
  · exact Nat.le_of_lt h
  · exact Nat.le_of_eq h.symm

theorem sInsert_pairwise_lexGT {x : TaggedRoute} : ∀ {l : List TaggedRoute},
    l.Pairwise lexGT → (∀ y ∈ l, y.tag < x.tag) → (sInsert x l).Pairwise lexGT := by
  intro l
  induction l with
  | nil => intro _ _; simp [sInsert]
  | cons y ys ih =>
      intro hp htags
      obtain ⟨hy, hys⟩ := List.pairwise_cons.mp hp
      simp only [sInsert]
      split
      · rename_i hlt
        refine List.pairwise_cons.mpr ⟨?_, hp⟩
        intro z hz
        rcases List.mem_cons.mp hz with rfl | hz
        · exact Or.inl hlt
        · exact Or.inl (Nat.lt_of_le_of_lt (lexGT_score_le (hy z hz)) hlt)
      · rename_i hnlt
        refine List.pairwise_cons.mpr ⟨?_, ?_⟩
        · intro z hz
          rcases mem_sInsert.mp hz with rfl | hz
          · rcases Nat.lt_or_ge (routeScore z) (routeScore y) with h | h
            · exact Or.inl h
            · have : routeScore y = routeScore z :=
                Nat.le_antisymm h (Nat.not_lt.mp hnlt)
              exact Or.inr ⟨this, htags y (List.mem_cons_self y ys)⟩
          · exact hy z hz
        · exact ih hys (fun z hz => htags z (List.mem_cons_of_mem y hz))

theorem registerAll_invariant : ∀ (entries acc : List TaggedRoute),
    acc.Pairwise lexGT →
    entries.Pairwise (fun a b => a.tag < b.tag) →
    (∀ a ∈ acc, ∀ b ∈ entries, a.tag < b.tag) →
    (entries.foldl (fun table e => sortRoutes (table ++ [e])) acc).Pairwise lexGT ∧
    (entries.foldl (fun table e => sortRoutes (table ++ [e])) acc).Perm (acc ++ entries) := by
  intro entries
  induction entries with
  | nil => intro acc hacc _ _; simpa using hacc
  | cons e es ih =>
      intro acc hacc hents hcross
      obtain ⟨he, hes⟩ := List.pairwise_cons.mp hents
      have haccs : acc.Pairwise (fun a b => routeScore b ≤ routeScore a) :=
        hacc.imp lexGT_score_le
      have hstep : sortRoutes (acc ++ [e]) = sInsert e acc := by
        unfold sortRoutes
        rw [List.foldl_append]
        have : acc.foldl (fun acc x => sInsert x acc) [] = acc := by
          have := foldl_sInsert_sorted acc [] (by simp) haccs (by simp)
          simpa using this
        simp [this]
      have htag : ∀ y ∈ acc, y.tag < e.tag := fun y hy =>
        hcross y hy e (List.mem_cons_self e es)
      have hacc2 : (sInsert e acc).Pairwise lexGT :=
        sInsert_pairwise_lexGT hacc htag
      have hcross2 : ∀ a ∈ sInsert e acc, ∀ b ∈ es, a.tag < b.tag := by
        intro a ha b hb
        rcases mem_sInsert.mp ha with rfl | ha
        · exact he b hb
        · exact hcross a ha b (List.mem_cons_of_mem e hb)
      obtain ⟨h1, h2⟩ := ih (sInsert e acc) hacc2 hes hcross2
      simp only [List.foldl_cons, hstep]
      refine ⟨h1, ?_⟩
      refine h2.trans ?_
      have : (sInsert e acc ++ es).Perm ((e :: acc) ++ es) :=
        (sInsert_perm e acc).append_right es
      refine this.trans ?_
      simpa using List.perm_middle.symm

theorem tagFrom_tags : ∀ (ps : List String) (i : Nat),
    (tagFrom i ps).Pairwise (fun a b => a.tag < b.tag) ∧
    (∀ e ∈ tagFrom i ps, i ≤ e.tag) := by
  intro ps
  induction ps with
  | nil => intro i; simp [tagFrom]
  | cons p ps ih =>
      intro i
      obtain ⟨h1, h2⟩ := ih (i + 1)
      constructor
      · refine List.pairwise_cons.mpr ⟨?_, h1⟩
        intro e he
        exact Nat.lt_of_lt_of_le (Nat.lt_succ_self i) (h2 e he)
      · intro e he
        rcases List.mem_cons.mp he with rfl | he
        · exact Nat.le_refl i
        · exact Nat.le_of_lt (Nat.lt_of_lt_of_le (Nat.lt_succ_self i) (h2 e he))

theorem tagFrom_map_path : ∀ (ps : List String) (i : Nat),
    (tagFrom i ps).map TaggedRoute.path = ps := by
  intro ps
  induction ps with
  | nil => intro i; simp [tagFrom]
  | cons p ps ih => intro i; simp [tagFrom, ih]


/-- The six registration orders of the three example routes from the claim. -/
def exampleOrders : List (List String) :=
  [["/users/:id", "/users/profile", "/users"],
   ["/users/:id", "/users", "/users/profile"],
   ["/users/profile", "/users/:id", "/users"],
   ["/users/profile", "/users", "/users/:id"],
   ["/users", "/users/:id", "/users/profile"],
   ["/users", "/users/profile", "/users/:id"]]

set_option maxRecDepth 8000 in
/-- C2: after every sequence of `route()`/`addRoute()` insertions the route
table is (a) sorted by descending specificity score, (b) with ties in
registration order (stable sort), and (c) a permutation of the registered
entries; consequently (d) for score-distinct route sets the dispatch order is
independent of registration order; and (e) registering `/users/:id`,
`/users/profile`, `/users` in any of the six orders always yields the table
order `/users/profile`, `/users`, `/users/:id`.  (Applying the statement to
a prefix of a registration sequence gives the invariant after every single
insertion.) -/
theorem routeTable_sorted_stable (paths : List String) :
    ((registerAll paths).Pairwise (fun a b => routeScore b ≤ routeScore a) ∧
     (registerAll paths).Pairwise (fun a b => routeScore a = routeScore b → a.tag < b.tag) ∧
     (registerAll paths).Perm (tagFrom 0 paths)) ∧
    (∀ paths₂ : List String, paths.Perm paths₂ →
      paths.Pairwise (fun p q => getRouteSpecificity p ≠ getRouteSpecificity q) →
      (registerAll paths).map TaggedRoute.path = (registerAll paths₂).map TaggedRoute.path) ∧
    (exampleOrders.all
      (fun ps => decide ((registerAll ps).map TaggedRoute.path =
        ["/users/profile", "/users", "/users/:id"])) = true) := by
  have main : ∀ ps : List String,
      (registerAll ps).Pairwise lexGT ∧ (registerAll ps).Perm (tagFrom 0 ps) := by
    intro ps
    have h := registerAll_invariant (tagFrom 0 ps) [] (by simp)
      (tagFrom_tags ps 0).1 (by simp)
    exact ⟨h.1, by simpa using h.2⟩
  refine ⟨⟨(main paths).1.imp lexGT_score_le, ?_, (main paths).2⟩, ?_, by decide⟩
  · refine (main paths).1.imp ?_
    intro a b hab heq
    rcases hab with h | ⟨_, h⟩
    · exact absurd heq (Nat.ne_of_gt h)
    · exact h
  · intro paths₂ hperm hinj
    have hinj₂ : paths₂.Pairwise (fun p q =>
        getRouteSpecificity p ≠ getRouteSpecificity q) :=
      hinj.perm hperm (fun h => Ne.symm h)
    have strictTable : ∀ ps : List String,
        ps.Pairwise (fun p q => getRouteSpecificity p ≠ getRouteSpecificity q) →
        ((registerAll ps).map TaggedRoute.path).Pairwise
          (fun p q => getRouteSpecificity q < getRouteSpecificity p) := by
      intro ps hne
      have h0 : ((tagFrom 0 ps).map TaggedRoute.path).Pairwise
          (fun p q => getRouteSpecificity p ≠ getRouteSpecificity q) := by
        rw [tagFrom_map_path]; exact hne
      have hne' : (tagFrom 0 ps).Pairwise
          (fun a b => getRouteSpecificity a.path ≠ getRouteSpecificity b.path) :=
        (List.pairwise_map (f := TaggedRoute.path)
          (R := fun p q => getRouteSpecificity p ≠ getRouteSpecificity q)).mp h0
      have hneT : (registerAll ps).Pairwise
          (fun a b => getRouteSpecificity a.path ≠ getRouteSpecificity b.path) :=
        hne'.perm ((main ps).2).symm (fun h => Ne.symm h)
      have hstrict : (registerAll ps).Pairwise (fun a b => routeScore b < routeScore a) := by
        refine ((main ps).1.and hneT).imp ?_
        intro a b hab
        rcases hab.1 with h | ⟨h, _⟩
        · exact h
        · exact absurd h hab.2
      exact List.pairwise_map.mpr hstrict
    have hp₁ : ((registerAll paths).map TaggedRoute.path).Perm paths := by
      have := ((main paths).2).map TaggedRoute.path
      rwa [tagFrom_map_path] at this
    have hp₂ : ((registerAll paths₂).map TaggedRoute.path).Perm paths₂ := by
      have := ((main paths₂).2).map TaggedRoute.path
      rwa [tagFrom_map_path] at this
    have hpp : ((registerAll paths).map TaggedRoute.path).Perm
        ((registerAll paths₂).map TaggedRoute.path) :=
      (hp₁.trans hperm).trans hp₂.symm
    haveI : IsAntisymm String (fun p q =>
        getRouteSpecificity q < getRouteSpecificity p) :=
      ⟨fun a b h1 h2 => absurd (Nat.lt_trans h1 h2) (Nat.lt_irrefl _)⟩
    exact List.eq_of_perm_of_sorted hpp (strictTable paths hinj) (strictTable paths₂ hinj₂)

/-- Witness for C2: concrete instantiation of the order-independence clause. -/
theorem routeTable_sorted_stable_witness :
    (registerAll ["/users", "/users/:id"]).map TaggedRoute.path =
      (registerAll ["/users/:id", "/users"]).map TaggedRoute.path :=
  (routeTable_sorted_stable ["/users", "/users/:id"]).2.1
    ["/users/:id", "/users"] (by decide) (by decide)

/-! ## Cache key derivation (`CacheManager.generateKey`, `src/cache/manager.ts`) -/

/-- Authenticated principal attached to a request.  Only the `id` field is
consulted by the cache-key derivation (`options?.authUser?.id`); `none` and
the empty string model the JS-falsy ids that fall back to the sentinel. -/
structure AuthUser where
  id : Option String
deriving DecidableEq

/-- The `options?.authUser?.id || 'anonymous'` expression. -/
def authUserIdOrAnon (authUser : Option AuthUser) : String :=
  match authUser with
  | none => "anonymous"
  | some u =>
      match u.id with
      | none => "anonymous"
      | some s => if s = "" then "anonymous" else s

/-- `CacheManager.generateKey`: `[method, url.pathname, url.search, id].join(':')`.
The request is represented by its parsed URL components (method, pathname,
full query string). -/
def generateKey (method pathname search : String) (authUser : Option AuthUser) : String :=
  joinWith ":" [method, pathname, search, authUserIdOrAnon authUser]

theorem generateKey_data (m p s : String) (u : Option AuthUser) :
    (generateKey m p s u).data =
      m.data ++ ':' :: (p.data ++ ':' :: (s.data ++ ':' :: (authUserIdOrAnon u).data)) := by
  show (((m ++ ":" ++ p) ++ ":" ++ s) ++ ":" ++ authUserIdOrAnon u).data = _
  simp [String.data_append]

/-- C8 counterexample: a request from a principal whose identifier is the
string "anonymous" and the same request from an unauthenticated caller
produce the same cache key, although they differ only in acting principal. -/
theorem generateKey_anonymous_collision :
    generateKey "GET" "/a" "" (some ⟨some "anonymous"⟩) =
      generateKey "GET" "/a" "" none ∧
    some (AuthUser.mk (some "anonymous")) ≠ (none : Option AuthUser) := by
  constructor
  · rfl
  · intro h
    cases h

/-- C8 (amended): the default cache key is method, pathname, query string and
effective principal identifier (the principal's id, or the "anonymous"
sentinel when the caller is unauthenticated or the id is falsy) joined by the
colon delimiter; keys differ whenever the method alone differs, the query
string alone differs, or the effective principal identifiers differ — in
particular an anonymous caller never collides with an authenticated principal
whose id is truthy and distinct from the sentinel. -/
theorem generateKey_uniqueness :
    (∀ (m p s : String) (u : Option AuthUser),
      generateKey m p s u = m ++ ":" ++ p ++ ":" ++ s ++ ":" ++ authUserIdOrAnon u) ∧
    (∀ (m₁ m₂ p s : String) (u : Option AuthUser),
      m₁ ≠ m₂ → generateKey m₁ p s u ≠ generateKey m₂ p s u) ∧
    (∀ (m p s₁ s₂ : String) (u : Option AuthUser),
      s₁ ≠ s₂ → generateKey m p s₁ u ≠ generateKey m p s₂ u) ∧
    (∀ (m p s : String) (u₁ u₂ : Option AuthUser),
      authUserIdOrAnon u₁ ≠ authUserIdOrAnon u₂ →
      generateKey m p s u₁ ≠ generateKey m p s u₂) := by
  refine ⟨fun m p s u => rfl, ?_, ?_, ?_⟩
  · intro m₁ m₂ p s u hne heq
    apply hne
    have h := congrArg String.data heq
    rw [generateKey_data, generateKey_data] at h
    exact String.ext (List.append_inj' h (by simp)).1
  · intro m p s₁ s₂ u hne heq
    apply hne
    have h := congrArg String.data heq
    rw [generateKey_data, generateKey_data] at h
    have h1 := List.append_cancel_left h
    have h2 := List.cons_injective h1
    have h3 := List.append_cancel_left h2
    have h4 := List.cons_injective h3
    exact String.ext (List.append_inj' h4 (by simp)).1
  · intro m p s u₁ u₂ hne heq
    apply hne
    have h := congrArg String.data heq
    rw [generateKey_data, generateKey_data] at h
    have h1 := List.cons_injective (List.append_cancel_left h)
    have h2 := List.cons_injective (List.append_cancel_left h1)
    have h3 := List.cons_injective (List.append_cancel_left h2)
    exact String.ext h3

/-- Witness for C8: the method-uniqueness clause at a concrete pair of
requests differing only in HTTP method. -/
theorem generateKey_uniqueness_witness :
    generateKey "GET" "/api/test" "" none ≠ generateKey "POST" "/api/test" "" none :=
  generateKey_uniqueness.2.1 "GET" "POST" "/api/test" "" none (by decide)

/-! ## Cache manager (`src/cache/manager.ts`)

The built-in store is a JS `Map` keyed by string, modelled as an association
list with `Map`-style in-place replacement.  `Date.now()` appears twice in a
miss (once in `getFromMemoryCache`, once in `setInMemoryCache`), modelled by
the two parameters `now` and `nowStore`.  TTLs and timestamps are JS numbers
restricted to integers (the claims only distinguish their sign and order).
The background `setInterval` sweep (`scheduleCleanup`) is a timer and stays
outside the per-call model; `has` performs its own lazy eviction, which is
modelled. -/

/-- A stored cache entry: value and absolute expiry timestamp (ms). -/
structure CacheEntry (V : Type) where
  value : V
  expires : Int
deriving DecidableEq

/-- Events observable during one cache-manager call. -/
inductive CacheEv where
  | factoryRun
  | customHandlerRun
deriving DecidableEq

/-- The built-in `Map` store. -/
abbrev CacheMap (V : Type) := List (String × CacheEntry V)

/-- `Map.get`. -/
def mapGet {V : Type} : CacheMap V → String → Option (CacheEntry V)
  | [], _ => none
  | (k, v) :: rest, key => if k = key then some v else mapGet rest key

/-- `Map.set`: replace in place, else append. -/
def mapSet {V : Type} : CacheMap V → String → CacheEntry V → CacheMap V
  | [], key, v => [(key, v)]
  | (k, v0) :: rest, key, v => if k = key then (key, v) :: rest else (k, v0) :: mapSet rest key v

/-- `Map.delete` (the removal part). -/
def mapDelete {V : Type} : CacheMap V → String → CacheMap V
  | [], _ => []
  | (k, v) :: rest, key => if k = key then rest else (k, v) :: mapDelete rest key

/-- `CacheManager.isCacheValid`: present and not expired, strictly. -/
def isCacheValid {V : Type} (entry : Option (CacheEntry V)) (now : Int) : Bool :=
  match entry with
  | none => false
  | some e => e.expires > now

/-- `CacheManager.setInMemoryCache`: store with expiry `Date.now() + ttl * 1000`. -/
def setInMemoryCache {V : Type} (mem : CacheMap V) (key : String) (value : V)
    (ttl nowStore : Int) : CacheMap V :=
  mapSet mem key ⟨value, nowStore + ttl * 1000⟩

/-- `CacheManager.getFromMemoryCache`: valid hit returns the stored value
without running the factory; otherwise run the factory once and store the
result.  The factory is a pure value here (its single invocation is the
`factoryRun` event). -/
def getFromMemoryCache {V : Type} (mem : CacheMap V) (key : String) (factory : V)
    (ttl now nowStore : Int) : V × CacheMap V × List CacheEv :=
  match mapGet mem key with
  | some cached =>
      if cached.expires > now then (cached.value, mem, [])
      else (factory, setInMemoryCache mem key factory ttl nowStore, [.factoryRun])
  | none => (factory, setInMemoryCache mem key factory ttl nowStore, [.factoryRun])

/-- `CacheManager.get`: the `ttl <= 0` escape hatch runs the factory and
touches nothing; then a configured custom handler gets the call; otherwise
the built-in store is consulted.  Returns the value, the new built-in store,
and the events. -/
def CacheManager.get {V : Type} (cacheHandler : Option (String → Int → V))
    (mem : CacheMap V) (key : String) (factory : V) (ttl now nowStore : Int) :
    V × CacheMap V × List CacheEv :=
  if ttl ≤ 0 then (factory, mem, [.factoryRun])
  else
    match cacheHandler with
    | some h => (h key ttl, mem, [.customHandlerRun])
    | none => getFromMemoryCache mem key factory ttl now nowStore

/-- `CacheManager.set`: nothing stored for `ttl <= 0`; a configured custom
handler receives the write (built-in store untouched); otherwise write to the
built-in store. -/
def CacheManager.set {V : Type} (cacheHandler : Option (String → Int → V))
    (mem : CacheMap V) (key : String) (value : V) (ttl nowStore : Int) :
    CacheMap V × List CacheEv :=
  if ttl ≤ 0 then (mem, [])
  else
    match cacheHandler with
    | some _ => (mem, [.customHandlerRun])
    | none => (setInMemoryCache mem key value ttl nowStore, [])

/-- `CacheManager.has`: lazily evicts an individually expired entry. -/
def CacheManager.has {V : Type} (mem : CacheMap V) (key : String) (now : Int) :
    Bool × CacheMap V :=
  match mapGet mem key with
  | none => (false, mem)
  | some e => if e.expires ≤ now then (false, mapDelete mem key) else (true, mem)

/-- C7 counterexample: with a custom cache handler configured and `ttl = 0`,
`get` does NOT delegate to the handler — it runs the factory, contradicting
"delegates entirely to that handler (for every ttl)". -/
theorem cacheGet_ttl_zero_skips_custom_handler :
    CacheManager.get (V := Nat) (some (fun _ _ => 111)) [] "k" 222 0 5 5 =
      (222, [], [CacheEv.factoryRun]) ∧
    CacheEv.customHandlerRun ∉ (CacheManager.get (V := Nat)
      (some (fun _ _ => 111)) [] "k" 222 0 5 5).2.2 := by
  constructor
  · rfl
  · intro h
    simp [CacheManager.get] at h

/-- C7 (amended): the Cache Gate's contract, with the one correction that the
`ttl ≤ 0` escape hatch takes precedence over the custom handler: (1) with
`ttl ≤ 0`, `get` always runs the factory and neither reads nor writes the
built-in store, custom handler or not; (2) with `ttl > 0` and a custom
handler configured, `get` delegates entirely to the handler and never
consults the built-in store; (3) with `ttl > 0` and no handler, a stored
entry valid strictly while `expires > now` is returned without running the
factory; (4) a miss or expired entry runs the factory exactly once, stores
the result with expiry `now + ttl` seconds, and returns it; (5) `set` with
`ttl ≤ 0` stores nothing; (6) `has` on an individually expired entry evicts
it and returns false. -/
theorem cacheManager_contract {V : Type}
    (cacheHandler : Option (String → Int → V)) (mem : CacheMap V)
    (key : String) (factory : V) (ttl now nowStore : Int) :
    (ttl ≤ 0 →
      CacheManager.get cacheHandler mem key factory ttl now nowStore =
        (factory, mem, [.factoryRun])) ∧
    (0 < ttl → ∀ h, cacheHandler = some h →
      CacheManager.get cacheHandler mem key factory ttl now nowStore =
        (h key ttl, mem, [.customHandlerRun])) ∧
    (0 < ttl → cacheHandler = none → ∀ e, mapGet mem key = some e → now < e.expires →
      CacheManager.get cacheHandler mem key factory ttl now nowStore =
        (e.value, mem, [])) ∧
    (0 < ttl → cacheHandler = none →
      (mapGet mem key = none ∨ ∃ e, mapGet mem key = some e ∧ e.expires ≤ now) →
      CacheManager.get cacheHandler mem key factory ttl now nowStore =
        (factory, mapSet mem key ⟨factory, nowStore + ttl * 1000⟩, [.factoryRun])) ∧
    (ttl ≤ 0 → ∀ value,
      CacheManager.set cacheHandler mem key value ttl nowStore = (mem, [])) ∧
    (∀ e, mapGet mem key = some e → e.expires ≤ now →
      CacheManager.has mem key now = (false, mapDelete mem key)) := by
  refine ⟨?_, ?_, ?_, ?_, ?_, ?_⟩
  · intro httl
    simp [CacheManager.get, httl]
  · intro httl h hh
    simp [CacheManager.get, Int.not_le.mpr httl, hh]
  · intro httl hnone e he hvalid
    simp [CacheManager.get, Int.not_le.mpr httl, hnone, getFromMemoryCache, he, hvalid]
  · intro httl hnone hmiss
    rcases hmiss with hmiss | ⟨e, he, hexp⟩
    · simp [CacheManager.get, Int.not_le.mpr httl, hnone, getFromMemoryCache, hmiss,
        setInMemoryCache]
    · simp [CacheManager.get, Int.not_le.mpr httl, hnone, getFromMemoryCache, he,
        Int.not_lt.mpr hexp, setInMemoryCache]
  · intro httl value
    simp [CacheManager.set, httl]
  · intro e he hexp
    simp [CacheManager.has, he, hexp]

/-- Witness for C7: a concrete valid hit is served from the store without
running the factory. -/
theorem cacheManager_contract_witness :
    CacheManager.get (V := Nat) none [("k", ⟨7, 1000⟩)] "k" 9 500 500 500 =
      (7, [("k", ⟨7, 1000⟩)], []) :=
  (cacheManager_contract (V := Nat) none [("k", ⟨7, 1000⟩)] "k" 9 500 500 500).2.2.1
    (by decide) rfl ⟨7, 1000⟩ (by decide) (by decide)

/-! ## Requests and the dispatch pipeline (`src/core/router.ts`)

The per-request pipeline is instrumented with an event trace: one event per
before-middleware invocation, per invocation of the configured authentication
function, per body-decode step, per route-handler invocation, and per
after-middleware invocation.  A JS throw is an `Except.error` carrying either
an `Error` message or a thrown `Response`. -/

/-- Decoded request body (`request.content`).  `nullC` is the JS `null`
assigned when the content-type-selected parser throws. -/
inductive ReqContent where
  | nullC
  | jsonC : Json → ReqContent
  | formC : List (String × String) → ReqContent
  | multipartC : List (String × String) → ReqContent
  | textC : String → ReqContent

/-- Model of a `VectorRequest`: parsed URL components plus the fields the
pipeline reads and writes.  `bodyOutcome` is the value the content-type-
selected body parser (json/formData/text) would produce, `none` when that
parser throws; `contextInit`, `queryParsed` and `cookiesParsed` record the
effects of `prepareRequest`. -/
structure Req where
  method : String
  pathname : String
  search : String
  authUser : Option AuthUser
  content : Option ReqContent
  params : List (String × String)
  routePath : Option String
  metadata : Option Json
  contextInit : Bool
  queryParsed : Bool
  cookiesParsed : Bool
  bodyOutcome : Option ReqContent

/-- Pipeline events. -/
inductive Ev where
  | beforeRun : Nat → Ev
  | authFnRun : Ev
  | bodyDecode : Ev
  | handlerRun : Ev
  | afterRun : Nat → Ev
deriving DecidableEq

/-- A JS thrown value: a `Response` used as an early exit, or an `Error`
(collapsed to its message, as the catch blocks only use the message). -/
inductive Thrown where
  | thrownResp : Resp → Thrown
  | thrownErr : String → Thrown

/-- What a route handler returns: a plain value or a full `Response`. -/
inductive HandlerResult where
  | value : Json → HandlerResult
  | response : Resp → HandlerResult

/-- A cacheable value: a plain value, or the serialized form of a `Response`
(`{_isResponse, body, status, headers}`), which `wrapHandler` reconstitutes
into an equivalent `Response` on a hit. -/
inductive CacheVal where
  | plain : Json → CacheVal
  | respV : Resp → CacheVal

/-- The `cache` route option: a bare number, or `{ key?, ttl }`. -/
inductive CacheOpt where
  | num : Int → CacheOpt
  | obj : Option String → Int → CacheOpt

/-- `RouteOptions` (`src/types`): the fields `wrapHandler` consults.
`expose = none` models an absent flag. -/
structure RouteOptions where
  method : String
  path : String
  expose : Option Bool
  auth : Bool
  rawRequest : Bool
  rawResponse : Bool
  cache : Option CacheOpt
  responseContentType : Option String
  metadata : Option Json

/-- The managers a `VectorRouter` is constructed with: the registered
before/finally middleware chains, the configured authentication function (a
throw is an `Except.error` with the error message), and the optional custom
cache handler (modelled as a total function; claims about the pipeline do not
exercise a throwing cache handler). -/
structure RouterConfig where
  beforeHandlers : List (Req → Except Thrown (Sum Req Resp))
  finallyHandlers : List (Resp → Req → Except Thrown Resp)
  protectedHandler : Option (Req → Except String AuthUser)
  customCacheHandler : Option (String → Int → CacheVal)

/-- `MiddlewareManager.executeBefore` (`src/middleware/manager.ts` lines
23-39) with invocation index `i`: run each handler on the request produced by
the previous one; a returned `Response` stops the chain; a throw propagates. -/
def executeBeforeGo (i : Nat) (handlers : List (Req → Except Thrown (Sum Req Resp)))
    (req : Req) : Except Thrown (Sum Req Resp) × List Ev :=
  match handlers with
  | [] => (.ok (.inl req), [])
  | h :: rest =>
      match h req with
      | .error t => (.error t, [.beforeRun i])
      | .ok (.inr resp) => (.ok (.inr resp), [.beforeRun i])
      | .ok (.inl req2) =>
          let next := executeBeforeGo (i + 1) rest req2
          (next.1, .beforeRun i :: next.2)

/-- `MiddlewareManager.executeBefore`. -/
def MiddlewareManager.executeBefore (handlers : List (Req → Except Thrown (Sum Req Resp)))
    (req : Req) : Except Thrown (Sum Req Resp) × List Ev :=
  executeBeforeGo 0 handlers req

/-- `MiddlewareManager.executeFinally` (`src/middleware/manager.ts` lines
41-52) with invocation index: every handler transforms the response; a throw
propagates to the caller. -/
def executeFinallyGo (i : Nat) (handlers : List (Resp → Req → Except Thrown Resp))
    (resp : Resp) (req : Req) : Except Thrown Resp × List Ev :=
  match handlers with
  | [] => (.ok resp, [])
  | h :: rest =>
      match h resp req with
      | .error t => (.error t, [.afterRun i])
      | .ok resp2 =>
          let next := executeFinallyGo (i + 1) rest resp2 req
          (next.1, .afterRun i :: next.2)

/-- `MiddlewareManager.executeFinally`. -/
def MiddlewareManager.executeFinally (handlers : List (Resp → Req → Except Thrown Resp))
    (resp : Resp) (req : Req) : Except Thrown Resp × List Ev :=
  executeFinallyGo 0 handlers resp req

/-- `AuthManager.authenticate` (`src/auth/protected.ts` lines 16-32): throws
when no protected handler is configured; otherwise runs it, attaches the
principal to `request.authUser` on success, and wraps a failure in
`Authentication failed: …`. -/
def AuthManager.authenticate (protectedHandler : Option (Req → Except String AuthUser))
    (req : Req) : Except String (AuthUser × Req) × List Ev :=
  match protectedHandler with
  | none =>
      (.error "Protected handler not configured. Use vector.protected() to set authentication handler.", [])
  | some ph =>
      match ph req with
      | .ok authUser => (.ok (authUser, { req with authUser := some authUser }), [.authFnRun])
      | .error msg => (.error ("Authentication failed: " ++ msg), [.authFnRun])

/-- `VectorRouter.prepareRequest` as called from `wrapHandler` (metadata
variant): initialize the context, copy the route metadata when provided,
parse query parameters and cookies. -/
def prepareRequest (req : Req) (metadata : Option Json) : Req :=
  let req2 := { req with contextInit := true }
  let req3 := match metadata with
    | some m => { req2 with metadata := some m }
    | none => req2
  { req3 with queryParsed := true, cookiesParsed := true }

/-- `VectorRouter.prepareRequest` as called from `handle` (params/route
variant); `route: path || pathname` falls back to the pathname for an empty
stored path. -/
def prepareRequestMatch (req : Req) (params : List (String × String)) (path : String) : Req :=
  let req2 := { req with
    contextInit := true
    params := params
    routePath := some (if path = "" then req.pathname else path) }
  { req2 with queryParsed := true, cookiesParsed := true }

/-- The outermost catch of `wrapHandler` (`src/core/router.ts` lines 268-278):
a thrown `Response` is returned unchanged, anything else becomes a 500 with
the error's message. -/
def funnelCatch (t : Thrown) (opts : RouteOptions) (now : Nat) : Resp :=
  match t with
  | .thrownResp r => r
  | .thrownErr msg => APIError.internalServerError msg opts.responseContentType now

/-- Stage 4 of `wrapHandler` (lines 188-197): authentication, converting any
failure into a 401 carrying the error's message. -/
def runAuthStage (cfg : RouterConfig) (opts : RouteOptions) (req : Req) (now : Nat) :
    Except Resp Req × List Ev :=
  if opts.auth then
    match AuthManager.authenticate cfg.protectedHandler req with
    | (.error msg, evs) => (.error (APIError.unauthorized msg opts.responseContentType now), evs)
    | (.ok (_, req2), evs) => (.ok req2, evs)
  else (.ok req, [])

/-- Stage 5 of `wrapHandler` (lines 199-214): body decoding, skipped for raw
routes and GET/HEAD; a parser throw yields `content = null` instead of
aborting. -/
def bodyDecodeStage (opts : RouteOptions) (req : Req) : Req × List Ev :=
  if opts.rawRequest = false ∧ req.method ≠ "GET" ∧ req.method ≠ "HEAD" then
    ({ req with content := some (req.bodyOutcome.getD ReqContent.nullC) }, [.bodyDecode])
  else (req, [])

/-- The `cacheFactory` closure of `wrapHandler` (lines 220-232): run the
handler; serialize a returned `Response` into a cacheable value. -/
def cacheFactory (handler : Req → Except Thrown HandlerResult) (req : Req) :
    Except Thrown CacheVal × List Ev :=
  match handler req with
  | .error t => (.error t, [.handlerRun])
  | .ok (.value j) => (.ok (.plain j), [.handlerRun])
  | .ok (.response r) => (.ok (.respV r), [.handlerRun])

/-- `CacheManager.get` as invoked from the pipeline, with the effectful
factory of `wrapHandler`: same branch structure as `CacheManager.get`
(`src/cache/manager.ts`), with the single `now` of the dispatch used for both
the validity check and the expiry stamp. -/
def pipelineCacheGet (cfg : RouterConfig) (store : CacheMap CacheVal) (key : String)
    (factory : Except Thrown CacheVal × List Ev) (ttl now : Int) :
    Except Thrown CacheVal × CacheMap CacheVal × List Ev :=
  if ttl ≤ 0 then (factory.1, store, factory.2)
  else
    match cfg.customCacheHandler with
    | some h => (.ok (h key ttl), store, [])
    | none =>
        match mapGet store key with
        | some cached =>
            if cached.expires > now then (.ok cached.value, store, [])
            else
              match factory with
              | (.error t, evs) => (.error t, store, evs)
              | (.ok v, evs) => (.ok v, setInMemoryCache store key v ttl now, evs)
        | none =>
            match factory with
            | (.error t, evs) => (.error t, store, evs)
            | (.ok v, evs) => (.ok v, setInMemoryCache store key v ttl now, evs)

/-- The reconstruction of a cached serialized `Response` (lines 251-256),
identity on plain values. -/
def reconstituteCacheVal : CacheVal → HandlerResult
  | .plain j => .value j
  | .respV r => .response r

/-- Stage 6 of `wrapHandler` (lines 216-256): cache-wrapped or direct handler
invocation.  A numeric cache option caches only when positive; an object
option caches when its `ttl` is truthy (nonzero); the cache key is the
explicit key when truthy, else the derived default key. -/
def invokeHandlerStage (cfg : RouterConfig) (opts : RouteOptions)
    (handler : Req → Except Thrown HandlerResult) (store : CacheMap CacheVal)
    (req : Req) (now : Int) : Except Thrown HandlerResult × CacheMap CacheVal × List Ev :=
  let directCall : Except Thrown HandlerResult × CacheMap CacheVal × List Ev :=
    match handler req with
    | .error t => (.error t, store, [.handlerRun])
    | .ok r => (.ok r, store, [.handlerRun])
  let derivedKey := generateKey req.method req.pathname req.search req.authUser
  match opts.cache with
  | some (.num n) =>
      if n > 0 then
        match pipelineCacheGet cfg store derivedKey (cacheFactory handler req) n now with
        | (.error t, store2, evs) => (.error t, store2, evs)
        | (.ok v, store2, evs) => (.ok (reconstituteCacheVal v), store2, evs)
      else directCall
  | some (.obj k t) =>
      if t ≠ 0 then
        let key := match k with
          | some s => if s = "" then derivedKey else s
          | none => derivedKey
        match pipelineCacheGet cfg store key (cacheFactory handler req) t now with
        | (.error th, store2, evs) => (.error th, store2, evs)
        | (.ok v, store2, evs) => (.ok (reconstituteCacheVal v), store2, evs)
      else directCall
  | none => directCall

/-- Stage 7 of `wrapHandler` (lines 258-263): response normalization. -/
def normalizeResponse (opts : RouteOptions) (result : HandlerResult) : Resp :=
  match result with
  | .response r => r
  | .value j =>
      if opts.rawResponse then
        { status := 200, contentType := "", body := .rawB (jsToString j) }
      else createResponse 200 (some j) opts.responseContentType

/-- Stages 5-8 of `wrapHandler`: body decode, (cache-wrapped) handler,
normalization, after-middleware; any throw propagates to the outer catch. -/
def postAuthPipeline (cfg : RouterConfig) (opts : RouteOptions)
    (handler : Req → Except Thrown HandlerResult) (store : CacheMap CacheVal)
    (req : Req) (now : Int) : Except Thrown Resp × CacheMap CacheVal × List Ev :=
  let decoded := bodyDecodeStage opts req
  match invokeHandlerStage cfg opts handler store decoded.1 now with
  | (.error t, store2, evH) => (.error t, store2, decoded.2 ++ evH)
  | (.ok result, store2, evH) =>
      let resp := normalizeResponse opts result
      match MiddlewareManager.executeFinally cfg.finallyHandlers resp decoded.1 with
      | (.error t, evF) => (.error t, store2, decoded.2 ++ evH ++ evF)
      | (.ok resp2, evF) => (.ok resp2, store2, decoded.2 ++ evH ++ evF)

/-- `VectorRouter.wrapHandler` (`src/core/router.ts` lines 165-280): prepare
the request, 403 for an explicitly unexposed route, before-middleware (a
returned `Response` short-circuits), authentication, then stages 5-8 with the
outer catch funnel.  Returns the response, the cache store, and the event
trace.  `now` is the single `Date.now()` instant of the dispatch. -/
def wrapHandler (cfg : RouterConfig) (opts : RouteOptions)
    (handler : Req → Except Thrown HandlerResult) (store : CacheMap CacheVal)
    (req0 : Req) (now : Nat) : Resp × CacheMap CacheVal × List Ev :=
  let req1 := prepareRequest req0 opts.metadata
  if opts.expose = some false then
    (APIError.forbidden "Forbidden" none now, store, [])
  else
    match MiddlewareManager.executeBefore cfg.beforeHandlers req1 with
    | (.error t, evs) => (funnelCatch t opts now, store, evs)
    | (.ok (.inr resp), evs) => (resp, store, evs)
    | (.ok (.inl req2), evs) =>
        match runAuthStage cfg opts req2 now with
        | (.error resp, evA) => (resp, store, evs ++ evA)
        | (.ok req3, evA) =>
            match postAuthPipeline cfg opts handler store req3 (Int.ofNat now) with
            | (.error t, store2, evP) => (funnelCatch t opts now, store2, evs ++ evA ++ evP)
            | (.ok resp, store2, evP) => (resp, store2, evs ++ evA ++ evP)

/-! ## Dispatch (`VectorRouter.handle`, `src/core/router.ts` lines 291-316) -/

/-- A route-table entry as `handle` consumes it: HTTP method, the compiled
matcher (the stored `RegExp` as a function from a pathname to the named
captures, `none` on no match), the handler list, and the original path. -/
structure HRoute where
  method : String
  matcher : String → Option (List (String × String))
  handlers : List (Req → Option Resp)
  path : String

/-- The inner handler loop of `handle`: first truthy handler result wins. -/
def runHandlers : List (Req → Option Resp) → Req → Option Resp
  | [], _ => none
  | h :: rest, req =>
      match h req with
      | some resp => some resp
      | none => runHandlers rest req

/-- `VectorRouter.handle`: scan the table in order; an entry is tried when the
request method is OPTIONS or equals the entry's method and the matcher
accepts the pathname; prepare the request with the captures and entry path,
run the entry's handlers; fall through on no response; 404 "Route not found"
when the scan exhausts the table. -/
def handle (routes : List HRoute) (req : Req) (now : Nat) : Resp :=
  match routes with
  | [] => APIError.notFound "Route not found" none now
  | r :: rest =>
      if req.method = "OPTIONS" ∨ req.method = r.method then
        match r.matcher req.pathname with
        | some caps =>
            match runHandlers r.handlers (prepareRequestMatch req caps r.path) with
            | some resp => resp
            | none => handle rest req now
        | none => handle rest req now
      else handle rest req now

theorem createErrorResponse_status (code : Nat) (msg : String) (ct : Option String) (now : Nat) :
    (createErrorResponse code msg ct now).status = code := by
  unfold createErrorResponse createResponse
  dsimp only
  split <;> rfl

/-- C3: `handle` scans the table in order and dispatches to the first entry
whose method matches the request (with OPTIONS compatible with every method)
and whose matcher accepts the pathname, provided that entry's wrapped handler
produces a response (the pipeline's wrapped handlers always do); when no
entry across the whole table matches, the result is the 404 response with
message "Route not found". -/
theorem handle_first_match (req : Req) (now : Nat) :
    (∀ routes : List HRoute,
      (∀ r ∈ routes, ¬((req.method = "OPTIONS" ∨ req.method = r.method) ∧
        (r.matcher req.pathname).isSome = true)) →
      handle routes req now = APIError.notFound "Route not found" none now ∧
      (handle routes req now).status = 404) ∧
    (∀ (pre : List HRoute) (r : HRoute) (post : List HRoute)
        (caps : List (String × String)) (resp : Resp),
      (∀ e ∈ pre, ¬((req.method = "OPTIONS" ∨ req.method = e.method) ∧
        (e.matcher req.pathname).isSome = true)) →
      (req.method = "OPTIONS" ∨ req.method = r.method) →
      r.matcher req.pathname = some caps →
      runHandlers r.handlers (prepareRequestMatch req caps r.path) = some resp →
      handle (pre ++ r :: post) req now = resp) := by
  constructor
  · intro routes
    induction routes with
    | nil =>
        intro _
        refine ⟨rfl, ?_⟩
        show (APIError.notFound "Route not found" none now).status = 404
        exact createErrorResponse_status 404 "Route not found" none now
    | cons r rest ih =>
        intro hnone
        have hr := hnone r (List.mem_cons_self r rest)
        have hrest := ih (fun e he => hnone e (List.mem_cons_of_mem r he))
        unfold handle
        by_cases hm : req.method = "OPTIONS" ∨ req.method = r.method
        · rw [if_pos hm]
          have : (r.matcher req.pathname).isSome = false := by
            cases hmt : (r.matcher req.pathname).isSome
            · rfl
            · exact absurd ⟨hm, hmt⟩ hr
          cases hmt : r.matcher req.pathname with
          | some caps => rw [hmt] at this; simp at this
          | none => exact hrest
        · rw [if_neg hm]
          exact hrest
  · intro pre
    induction pre with
    | nil =>
        intro r post caps resp _ hm hmt hrun
        show handle (r :: post) req now = resp
        unfold handle
        rw [if_pos hm]
        simp only [hmt, hrun]
    | cons p pre ih =>
        intro r post caps resp hpre hm hmt hrun
        have hp := hpre p (List.mem_cons_self p pre)
        have hrest := ih r post caps resp
          (fun e he => hpre e (List.mem_cons_of_mem p he)) hm hmt hrun
        show handle (p :: (pre ++ r :: post)) req now = resp
        unfold handle
        by_cases hpm : req.method = "OPTIONS" ∨ req.method = p.method
        · rw [if_pos hpm]
          have : (p.matcher req.pathname).isSome = false := by
            cases hx : (p.matcher req.pathname).isSome
            · rfl
            · exact absurd ⟨hpm, hx⟩ hp
          cases hx : p.matcher req.pathname with
          | some caps2 => rw [hx] at this; simp at this
          | none => exact hrest
        · rw [if_neg hpm]
          exact hrest

/-- Witness for C3: a two-entry table where the first entry's method does not
match and the second matches and responds. -/
theorem handle_first_match_witness :
    handle
      [⟨"POST", fun _ => some [], [fun _ => some ⟨201, "", .rawB "created"⟩], "/x"⟩,
       ⟨"GET", fun p => if p = "/x" then some [] else none,
        [fun _ => some ⟨200, "", .rawB "ok"⟩], "/x"⟩]
      ⟨"GET", "/x", "", none, none, [], none, none, false, false, false, none⟩ 7 =
      ⟨200, "", .rawB "ok"⟩ := by
  have h := (handle_first_match
    ⟨"GET", "/x", "", none, none, [], none, none, false, false, false, none⟩ 7).2
    [⟨"POST", fun _ => some [], [fun _ => some ⟨201, "", .rawB "created"⟩], "/x"⟩]
    ⟨"GET", fun p => if p = "/x" then some [] else none,
      [fun _ => some ⟨200, "", .rawB "ok"⟩], "/x"⟩
    [] [] ⟨200, "", .rawB "ok"⟩
  apply h
  · intro e he hcontra
    rcases List.mem_singleton.mp he with rfl
    rcases hcontra.1 with hopt | hpost
    · exact absurd hopt (by decide)
    · exact absurd hpost (by decide)
  · right; rfl
  · rfl
  · rfl

/-! ## The standalone `api` wrapper (`src/errors/index.ts` lines 385-431)

`api(options, fn)` destructures its options with `expose = false` as the
default, returns 403 for a non-exposed route before anything else, runs
`protectedRoute` when `auth` is set (throwing `APIError.unauthorized`
responses that the catch returns verbatim), applies itty-router's
`withContent` (modelled as the body-decode step), invokes `fn`, and wraps the
result in a 200 success response unless `rawResponse` is set.  With
`rawResponse` set and a non-`Response` result the raw value is handed back to
the router, modelled by the `Sum.inr` branch. -/

/-- Modelled from the spec: `HTTP_STATUS.OK` from the absent `src/constants`
module; the spec fixes 200 for success responses. -/
def HTTP_STATUS_OK : Nat := 200

/-- `ApiResponse.success` (`src/errors/index.ts`). -/
def ApiResponse.success (data : Json) (contentType : Option String) : Resp :=
  createResponse HTTP_STATUS_OK (some data) contentType

/-- The `api` wrapper.  Returns either a `Response` (`Sum.inl`) or, for
`rawResponse` routes whose handler returned a plain value, that raw value
(`Sum.inr`), plus the event trace. -/
def api (cfg : RouterConfig) (opts : RouteOptions) (fn : Req → Except Thrown HandlerResult)
    (req0 : Req) (now : Nat) : Sum Resp Json × List Ev :=
  let expose := opts.expose.getD false
  if expose = false then (.inl (APIError.forbidden "Forbidden" none now), [])
  else
    let afterAuth : Except (Resp × List Ev) (Req × List Ev) :=
      if opts.auth then
        match cfg.protectedHandler with
        | none =>
            .error (APIError.unauthorized "Authentication not configured"
              opts.responseContentType now, [])
        | some ph =>
            match ph req0 with
            | .ok u => .ok ({ req0 with authUser := some u }, [.authFnRun])
            | .error msg =>
                .error (APIError.unauthorized msg opts.responseContentType now, [.authFnRun])
      else .ok (req0, [])
    match afterAuth with
    | .error re => (.inl re.1, re.2)
    | .ok (req1, evA) =>
        let decoded : Req × List Ev :=
          if opts.rawRequest = false then
            ({ req1 with content := some (req1.bodyOutcome.getD ReqContent.nullC) }, [.bodyDecode])
          else (req1, [])
        match fn decoded.1 with
        | .error (.thrownResp r) => (.inl r, evA ++ decoded.2 ++ [.handlerRun])
        | .error (.thrownErr msg) =>
            (.inl (APIError.internalServerError msg opts.responseContentType now),
              evA ++ decoded.2 ++ [.handlerRun])
        | .ok (.response r) => (.inl r, evA ++ decoded.2 ++ [.handlerRun])
        | .ok (.value j) =>
            if opts.rawResponse then (.inr j, evA ++ decoded.2 ++ [.handlerRun])
            else (.inl (ApiResponse.success j opts.responseContentType),
              evA ++ decoded.2 ++ [.handlerRun])

/-- An empty router configuration: no middleware, no auth, no cache handler. -/
def emptyCfg : RouterConfig := ⟨[], [], none, none⟩

/-- A minimal GET request fixture. -/
def baseReq : Req := ⟨"GET", "/x", "", none, none, [], none, none, false, false, false, none⟩

/-- Route options for `GET /x` with the given exposure flag and everything
else unset. -/
def mkOpts (expose : Option Bool) : RouteOptions :=
  ⟨"GET", "/x", expose, false, false, false, none, none, none⟩

/-- C4 counterexample: a route registered through the `api()`/`route()` helper
without an explicit exposure flag is NOT exposed — `api` destructures
`expose = false` by default and returns 403 "Forbidden" to every caller. -/
theorem api_default_unexposed :
    (api emptyCfg (mkOpts none) (fun _ => .ok (.value .null)) baseReq 0).1 =
      .inl (APIError.forbidden "Forbidden" none 0) ∧
    (APIError.forbidden "Forbidden" none 0).status = 403 ∧
    (api emptyCfg (mkOpts none) (fun _ => .ok (.value .null)) baseReq 0).2 = [] :=
  ⟨rfl, rfl, rfl⟩

/-- C4 (amended): exposure semantics of both registration paths.  In
`VectorRouter.wrapHandler` an explicit `expose: false` yields the 403
"Forbidden" response with an empty event trace (no before-middleware, auth,
body decoding, handler or after-middleware runs), and an absent flag behaves
exactly like `expose: true` (default exposed); in the standalone `api`
wrapper an explicit `expose: false` yields the same immediate 403, but an
absent flag ALSO defaults to unexposed and yields the 403. -/
theorem exposure_flag_behavior :
    (∀ cfg opts handler store req0 now, opts.expose = some false →
      wrapHandler cfg opts handler store req0 now =
        (APIError.forbidden "Forbidden" none now, store, []) ∧
      (APIError.forbidden "Forbidden" none now).status = 403) ∧
    (∀ cfg opts handler store req0 now, opts.expose = none →
      wrapHandler cfg opts handler store req0 now =
        wrapHandler cfg { opts with expose := some true } handler store req0 now) ∧
    (∀ cfg opts fn req0 now, opts.expose = some false →
      api cfg opts fn req0 now = (.inl (APIError.forbidden "Forbidden" none now), [])) ∧
    (∀ cfg opts fn req0 now, opts.expose = none →
      api cfg opts fn req0 now = (.inl (APIError.forbidden "Forbidden" none now), [])) := by
  refine ⟨?_, ?_, ?_, ?_⟩
  · intro cfg opts handler store req0 now h
    constructor
    · simp [wrapHandler, h]
    · exact createErrorResponse_status 403 "Forbidden" none now
  · intro cfg opts handler store req0 now h
    obtain ⟨m, p, e, au, rr, rs, c, rct, md⟩ := opts
    simp only at h
    subst h
    rfl
  · intro cfg opts fn req0 now h
    simp [api, h]
  · intro cfg opts fn req0 now h
    simp [api, h]

/-- Witness for C4: an explicitly unexposed route through `wrapHandler`
returns the 403 with an empty trace. -/
theorem exposure_flag_behavior_witness :
    wrapHandler emptyCfg (mkOpts (some false)) (fun _ => .ok (.value .null)) [] baseReq 0 =
      (APIError.forbidden "Forbidden" none 0, [], []) :=
  (exposure_flag_behavior.1 emptyCfg (mkOpts (some false))
    (fun _ => .ok (.value .null)) [] baseReq 0 rfl).1

theorem executeBeforeGo_events :
    ∀ (hs : List (Req → Except Thrown (Sum Req Resp))) (i : Nat) (req : Req),
    ∀ ev ∈ (executeBeforeGo i hs req).2, ∃ j, i ≤ j ∧ j < i + hs.length ∧ ev = .beforeRun j := by
  intro hs
  induction hs with
  | nil => intro i req ev hev; simp [executeBeforeGo] at hev
  | cons h rest ih =>
      intro i req ev hev
      simp only [executeBeforeGo] at hev
      cases hh : h req with
      | error t =>
          rw [hh] at hev
          simp at hev
          exact ⟨i, Nat.le_refl i, by simp, hev⟩
      | ok sr =>
          cases sr with
          | inr resp =>
              rw [hh] at hev
              simp at hev
              exact ⟨i, Nat.le_refl i, by simp, hev⟩
          | inl req2 =>
              rw [hh] at hev
              simp only [List.mem_cons] at hev
              rcases hev with rfl | hev
              · exact ⟨i, Nat.le_refl i, by simp, rfl⟩
              · obtain ⟨j, h1, h2, h3⟩ := ih (i + 1) req2 ev hev
                exact ⟨j, by omega, by simp [List.length_cons]; omega, h3⟩

theorem executeBeforeGo_append :
    ∀ (preH : List (Req → Except Thrown (Sum Req Resp))) (rest : List _)
      (i : Nat) (req req2 : Req) (evs : List Ev),
    executeBeforeGo i preH req = (.ok (.inl req2), evs) →
    executeBeforeGo i (preH ++ rest) req =
      ((executeBeforeGo (i + preH.length) rest req2).1,
       evs ++ (executeBeforeGo (i + preH.length) rest req2).2) := by
  intro preH
  induction preH with
  | nil =>
      intro rest i req req2 evs h
      simp only [executeBeforeGo] at h
      injection h with h1 h2
      injection h1 with h1
      injection h1 with h1
      subst h1
      subst h2
      simp
  | cons hh pre ih =>
      intro rest i req req2 evs h
      simp only [executeBeforeGo] at h
      cases hhr : hh req with
      | error t => rw [hhr] at h; cases h
      | ok sr =>
          cases sr with
          | inr resp => rw [hhr] at h; simp at h
          | inl reqB =>
              rw [hhr] at h
              simp only [Prod.mk.injEq] at h
              obtain ⟨h1, h2⟩ := h
              have hpre : executeBeforeGo (i + 1) pre reqB =
                  (.ok (.inl req2), (executeBeforeGo (i + 1) pre reqB).2) := by
                rw [← h1]
              have hrec := ih rest (i + 1) reqB req2 (executeBeforeGo (i + 1) pre reqB).2 hpre
              simp only [List.cons_append, executeBeforeGo]
              rw [hhr]
              simp only [hrec]
              subst h2
              have hidx : i + 1 + pre.length = i + (pre.length + 1) := by omega
              simp only [List.length_cons, List.cons_append]
              rw [← hidx]
              simp only [List.append_eq]
              rw [hrec]

/-- C5: for an exposed route, when the before-middleware prefix `preH` runs
cleanly (each handler receiving the request produced by the previous one,
yielding `req2`) and the next handler `h` returns a `Response`, the dispatch
returns exactly that `Response`; the whole event trace consists of the
before-middleware invocations up to and including `h` — so no later
before-handler, no authentication, no body decoding, no route handler, and no
after-middleware runs for that request. -/
theorem beforeChain_short_circuit (cfg : RouterConfig) (opts : RouteOptions)
    (handler : Req → Except Thrown HandlerResult) (store : CacheMap CacheVal)
    (req0 : Req) (now : Nat)
    (preH : List (Req → Except Thrown (Sum Req Resp)))
    (h : Req → Except Thrown (Sum Req Resp))
    (postH : List (Req → Except Thrown (Sum Req Resp)))
    (req2 : Req) (evs : List Ev) (resp : Resp)
    (hexp : opts.expose ≠ some false)
    (hchain : cfg.beforeHandlers = preH ++ h :: postH)
    (hpre : executeBeforeGo 0 preH (prepareRequest req0 opts.metadata) = (.ok (.inl req2), evs))
    (hstop : h req2 = .ok (.inr resp)) :
    wrapHandler cfg opts handler store req0 now =
      (resp, store, evs ++ [.beforeRun preH.length]) ∧
    (∀ ev ∈ evs ++ [Ev.beforeRun preH.length], ∃ i, i ≤ preH.length ∧ ev = Ev.beforeRun i) := by
  have hfull : MiddlewareManager.executeBefore cfg.beforeHandlers (prepareRequest req0 opts.metadata) =
      (.ok (.inr resp), evs ++ [.beforeRun preH.length]) := by
    unfold MiddlewareManager.executeBefore
    rw [hchain]
    rw [executeBeforeGo_append preH (h :: postH) 0 _ req2 evs hpre]
    simp [executeBeforeGo, hstop]
  constructor
  · unfold wrapHandler
    rw [if_neg hexp]
    rw [hfull]
  · intro ev hev
    rcases List.mem_append.mp hev with hev | hev
    · have hevs : evs = (executeBeforeGo 0 preH (prepareRequest req0 opts.metadata)).2 := by
        rw [hpre]
      rw [hevs] at hev
      obtain ⟨j, hj1, hj2, hj3⟩ := executeBeforeGo_events preH 0 _ ev hev
      exact ⟨j, by omega, hj3⟩
    · rcases List.mem_singleton.mp hev with rfl
      exact ⟨preH.length, Nat.le_refl _, rfl⟩

/-- Witness for C5: a responding before-middleware after one clean
middleware, on a concrete request. -/
theorem beforeChain_short_circuit_witness :
    wrapHandler
      ⟨[fun r => .ok (.inl { r with params := [("seen", "1")] }),
        fun _ => .ok (.inr ⟨418, "", .rawB "stopped"⟩)],
       [fun r _ => .ok r], some (fun _ => .ok ⟨some "u"⟩), none⟩
      (mkOpts none) (fun _ => .ok (.value .null)) [] baseReq 3 =
      (⟨418, "", .rawB "stopped"⟩, [], [Ev.beforeRun 0, Ev.beforeRun 1]) :=
  (beforeChain_short_circuit
    ⟨[fun r => .ok (.inl { r with params := [("seen", "1")] }),
      fun _ => .ok (.inr ⟨418, "", .rawB "stopped"⟩)],
     [fun r _ => .ok r], some (fun _ => .ok ⟨some "u"⟩), none⟩
    (mkOpts none) (fun _ => .ok (.value .null)) [] baseReq 3
    [fun r => .ok (.inl { r with params := [("seen", "1")] })]
    (fun _ => .ok (.inr ⟨418, "", .rawB "stopped"⟩)) []
    { prepareRequest baseReq none with params := [("seen", "1")] }
    [Ev.beforeRun 0] ⟨418, "", .rawB "stopped"⟩
    (by simp [mkOpts]) rfl rfl rfl).1

theorem before_events_shape (hs : List (Req → Except Thrown (Sum Req Resp))) (req : Req) :
    ∀ ev ∈ (MiddlewareManager.executeBefore hs req).2, ∃ j, ev = Ev.beforeRun j := by
  intro ev hev
  obtain ⟨j, _, _, h3⟩ := executeBeforeGo_events hs 0 req ev hev
  exact ⟨j, h3⟩

/-- C6: the Auth Gate fails closed.  For an exposed route requiring
authentication, after a clean before-chain: (a) with no authentication
function configured the pipeline ends with a 401 carrying the thrown error's
message and the route handler never runs; (b) when the configured function
throws, the pipeline ends with a 401 carrying the wrapped error message
`Authentication failed: …` and the route handler never runs; (c) when it
resolves with a principal, the principal is attached to the request's
`authUser` field and the pipeline continues into the body-decode/handler
stages with that request. -/
theorem authGate_failClosed (cfg : RouterConfig) (opts : RouteOptions)
    (handler : Req → Except Thrown HandlerResult) (store : CacheMap CacheVal)
    (req0 : Req) (now : Nat) (req2 : Req) (evs : List Ev)
    (hauth : opts.auth = true)
    (hexp : opts.expose ≠ some false)
    (hbefore : MiddlewareManager.executeBefore cfg.beforeHandlers
      (prepareRequest req0 opts.metadata) = (.ok (.inl req2), evs)) :
    (cfg.protectedHandler = none →
      wrapHandler cfg opts handler store req0 now =
        (APIError.unauthorized
          "Protected handler not configured. Use vector.protected() to set authentication handler."
          opts.responseContentType now, store, evs) ∧
      (wrapHandler cfg opts handler store req0 now).1.status = 401 ∧
      Ev.handlerRun ∉ (wrapHandler cfg opts handler store req0 now).2.2) ∧
    (∀ ph msg, cfg.protectedHandler = some ph → ph req2 = .error msg →
      wrapHandler cfg opts handler store req0 now =
        (APIError.unauthorized ("Authentication failed: " ++ msg)
          opts.responseContentType now, store, evs ++ [.authFnRun]) ∧
      (wrapHandler cfg opts handler store req0 now).1.status = 401 ∧
      Ev.handlerRun ∉ (wrapHandler cfg opts handler store req0 now).2.2) ∧
    (∀ ph u, cfg.protectedHandler = some ph → ph req2 = .ok u →
      wrapHandler cfg opts handler store req0 now =
        (match postAuthPipeline cfg opts handler store
            { req2 with authUser := some u } (Int.ofNat now) with
         | (.error t, store2, evP) => (funnelCatch t opts now, store2, evs ++ [.authFnRun] ++ evP)
         | (.ok resp, store2, evP) => (resp, store2, evs ++ [.authFnRun] ++ evP)) ∧
      (Req.authUser { req2 with authUser := some u }) = some u) := by
  have hnoHandlerRun : Ev.handlerRun ∉ evs := by
    intro hmem
    have hevs : evs = (MiddlewareManager.executeBefore cfg.beforeHandlers
        (prepareRequest req0 opts.metadata)).2 := by rw [hbefore]
    rw [hevs] at hmem
    obtain ⟨j, hj⟩ := before_events_shape _ _ _ hmem
    cases hj
  refine ⟨?_, ?_, ?_⟩
  · intro hnone
    have hres : wrapHandler cfg opts handler store req0 now =
        (APIError.unauthorized
          "Protected handler not configured. Use vector.protected() to set authentication handler."
          opts.responseContentType now, store, evs) := by
      unfold wrapHandler
      rw [if_neg hexp, hbefore]
      simp [runAuthStage, hauth, AuthManager.authenticate, hnone]
    refine ⟨hres, ?_, ?_⟩
    · rw [hres]
      exact createErrorResponse_status 401 _ _ now
    · rw [hres]
      exact hnoHandlerRun
  · intro ph msg hph herr
    have hres : wrapHandler cfg opts handler store req0 now =
        (APIError.unauthorized ("Authentication failed: " ++ msg)
          opts.responseContentType now, store, evs ++ [.authFnRun]) := by
      unfold wrapHandler
      rw [if_neg hexp, hbefore]
      simp [runAuthStage, hauth, AuthManager.authenticate, hph, herr]
    refine ⟨hres, ?_, ?_⟩
    · rw [hres]
      exact createErrorResponse_status 401 _ _ now
    · rw [hres]
      intro hmem
      rcases List.mem_append.mp hmem with hmem | hmem
      · exact hnoHandlerRun hmem
      · rcases List.mem_singleton.mp hmem with h
        cases h
  · intro ph u hph hok
    constructor
    · unfold wrapHandler
      rw [if_neg hexp, hbefore]
      simp [runAuthStage, hauth, AuthManager.authenticate, hph, hok]
    · rfl

/-- Witness for C6: with no authentication function configured, a concrete
auth-required route yields the 401 fail-closed response. -/
theorem authGate_failClosed_witness :
    wrapHandler emptyCfg ⟨"GET", "/x", none, true, false, false, none, none, none⟩
      (fun _ => .ok (.value .null)) [] baseReq 4 =
      (APIError.unauthorized
        "Protected handler not configured. Use vector.protected() to set authentication handler."
        none 4, [], []) :=
  ((authGate_failClosed emptyCfg ⟨"GET", "/x", none, true, false, false, none, none, none⟩
    (fun _ => .ok (.value .null)) [] baseReq 4 (prepareRequest baseReq none) []
    rfl (by simp) rfl).1 rfl).1

theorem cacheFactory_events (handler : Req → Except Thrown HandlerResult) (req : Req) :
    (cacheFactory handler req).2 = [Ev.handlerRun] := by
  unfold cacheFactory
  cases handler req with
  | error t => rfl
  | ok r => cases r <;> rfl

theorem pipelineCacheGet_events (cfg : RouterConfig) (store : CacheMap CacheVal)
    (key : String) (fac : Except Thrown CacheVal × List Ev) (ttl now : Int) :
    ∀ ev ∈ (pipelineCacheGet cfg store key fac ttl now).2.2, ev ∈ fac.2 := by
  obtain ⟨fr, fevs⟩ := fac
  intro ev hev
  unfold pipelineCacheGet at hev
  by_cases httl : ttl ≤ 0
  · rw [if_pos httl] at hev
    exact hev
  · rw [if_neg httl] at hev
    cases hch : cfg.customCacheHandler with
    | some h => rw [hch] at hev; simp at hev
    | none =>
        rw [hch] at hev
        dsimp only at hev
        cases hmg : mapGet store key with
        | some cached =>
            rw [hmg] at hev
            dsimp only at hev
            by_cases hvalid : cached.expires > now
            · rw [if_pos hvalid] at hev
              simp at hev
            · rw [if_neg hvalid] at hev
              cases fr <;> exact hev
        | none =>
            rw [hmg] at hev
            dsimp only at hev
            cases fr <;> exact hev

theorem invokeHandlerStage_events (cfg : RouterConfig) (opts : RouteOptions)
    (handler : Req → Except Thrown HandlerResult) (store : CacheMap CacheVal)
    (req : Req) (now : Int) :
    ∀ ev ∈ (invokeHandlerStage cfg opts handler store req now).2.2, ev = Ev.handlerRun := by
  intro ev hev
  have hdirect : ∀ (st : CacheMap CacheVal),
      ev ∈ (match handler req with
        | .error t => ((.error t : Except Thrown HandlerResult), st, [Ev.handlerRun])
        | .ok r => (.ok r, st, [Ev.handlerRun])).2.2 → ev = Ev.handlerRun := by
    intro st hm
    cases hh : handler req with
    | error t => rw [hh] at hm; simp at hm; exact hm
    | ok r => rw [hh] at hm; simp at hm; exact hm
  have hcached : ∀ (key : String) (ttl : Int),
      ev ∈ (match pipelineCacheGet cfg store key (cacheFactory handler req) ttl now with
        | (.error t, store2, evs) => ((.error t : Except Thrown HandlerResult), store2, evs)
        | (.ok v, store2, evs) => (.ok (reconstituteCacheVal v), store2, evs)).2.2 →
      ev = Ev.handlerRun := by
    intro key ttl hm
    have hsub : ev ∈ (pipelineCacheGet cfg store key (cacheFactory handler req) ttl now).2.2 := by
      rcases hpc : pipelineCacheGet cfg store key (cacheFactory handler req) ttl now with
        ⟨r, store2, evs⟩
      rw [hpc] at hm
      cases r <;> (simp at hm; simpa [hpc] using hm)
    have := pipelineCacheGet_events cfg store key (cacheFactory handler req) ttl now ev hsub
    rw [cacheFactory_events] at this
    simpa using this
  unfold invokeHandlerStage at hev
  dsimp only at hev
  cases hc : opts.cache with
  | none =>
      rw [hc] at hev
      dsimp only at hev
      exact hdirect store hev
  | some c =>
      cases c with
      | num n =>
          rw [hc] at hev
          dsimp only at hev
          by_cases hn : n > 0
          · rw [if_pos hn] at hev
            exact hcached _ n hev
          · rw [if_neg hn] at hev
            exact hdirect store hev
      | obj k t =>
          rw [hc] at hev
          dsimp only at hev
          by_cases ht : t ≠ 0
          · rw [if_pos ht] at hev
            exact hcached _ t hev
          · rw [if_neg ht] at hev
            exact hdirect store hev

theorem runAuthStage_events (cfg : RouterConfig) (opts : RouteOptions) (req : Req) (now : Nat) :
    ∀ ev ∈ (runAuthStage cfg opts req now).2, ev = Ev.authFnRun := by
  intro ev hev
  unfold runAuthStage at hev
  by_cases ha : opts.auth
  · rw [if_pos ha] at hev
    unfold AuthManager.authenticate at hev
    cases hph : cfg.protectedHandler with
    | none => rw [hph] at hev; simp at hev
    | some ph =>
        rw [hph] at hev
        dsimp only at hev
        cases hr : ph req with
        | ok u => rw [hr] at hev; simp at hev; exact hev
        | error msg => rw [hr] at hev; simp at hev; exact hev
  · rw [if_neg ha] at hev
    simp at hev

theorem bodyDecodeStage_events (opts : RouteOptions) (req : Req) :
    ∀ ev ∈ (bodyDecodeStage opts req).2, ev = Ev.bodyDecode := by
  intro ev hev
  unfold bodyDecodeStage at hev
  split at hev
  · simp at hev; exact hev
  · simp at hev

/-- C10 (amended): the after-middleware chain runs only for requests that
reach response normalization.  When the pipeline short-circuits before the
after-chain — the 403 for an unexposed route, a `Response` returned by (or an
error thrown from) a before-middleware, the 401 on authentication failure, or
a thrown `Response` / thrown error from the body/handler stage — that
response is returned and no after-middleware handler is invoked.  (A 500
funnel response can also arise from a throw inside the after-chain itself; in
that one case the after-handlers up to the throwing one did run, which is the
correction to the claim.) -/
theorem afterChain_requires_normalization :
    (∀ (cfg : RouterConfig) (opts : RouteOptions) (handler : Req → Except Thrown HandlerResult)
       (store : CacheMap CacheVal) (req0 : Req) (now : Nat),
      opts.expose = some false →
      wrapHandler cfg opts handler store req0 now =
        (APIError.forbidden "Forbidden" none now, store, []) ∧
      (∀ i, Ev.afterRun i ∉ (wrapHandler cfg opts handler store req0 now).2.2)) ∧
    (∀ cfg opts handler store req0 (now : Nat) t evs,
      opts.expose ≠ some false →
      MiddlewareManager.executeBefore cfg.beforeHandlers (prepareRequest req0 opts.metadata) =
        (.error t, evs) →
      wrapHandler cfg opts handler store req0 now = (funnelCatch t opts now, store, evs) ∧
      (∀ i, Ev.afterRun i ∉ (wrapHandler cfg opts handler store req0 now).2.2)) ∧
    (∀ cfg opts handler store req0 (now : Nat) resp evs,
      opts.expose ≠ some false →
      MiddlewareManager.executeBefore cfg.beforeHandlers (prepareRequest req0 opts.metadata) =
        (.ok (.inr resp), evs) →
      wrapHandler cfg opts handler store req0 now = (resp, store, evs) ∧
      (∀ i, Ev.afterRun i ∉ (wrapHandler cfg opts handler store req0 now).2.2)) ∧
    (∀ cfg opts handler store req0 (now : Nat) req2 evs respA evA,
      opts.expose ≠ some false →
      MiddlewareManager.executeBefore cfg.beforeHandlers (prepareRequest req0 opts.metadata) =
        (.ok (.inl req2), evs) →
      runAuthStage cfg opts req2 now = (.error respA, evA) →
      wrapHandler cfg opts handler store req0 now = (respA, store, evs ++ evA) ∧
      (∀ i, Ev.afterRun i ∉ (wrapHandler cfg opts handler store req0 now).2.2)) ∧
    (∀ cfg opts handler store req0 (now : Nat) req2 evs req3 evA t store2 evH,
      opts.expose ≠ some false →
      MiddlewareManager.executeBefore cfg.beforeHandlers (prepareRequest req0 opts.metadata) =
        (.ok (.inl req2), evs) →
      runAuthStage cfg opts req2 now = (.ok req3, evA) →
      invokeHandlerStage cfg opts handler store (bodyDecodeStage opts req3).1 (Int.ofNat now) =
        (.error t, store2, evH) →
      (wrapHandler cfg opts handler store req0 now).1 = funnelCatch t opts now ∧
      (wrapHandler cfg opts handler store req0 now).2.1 = store2 ∧
      (∀ i, Ev.afterRun i ∉ (wrapHandler cfg opts handler store req0 now).2.2)) := by
  have beforeNoAfter : ∀ (hs : List (Req → Except Thrown (Sum Req Resp))) (req : Req)
      (res : Except Thrown (Sum Req Resp)) (evs : List Ev) (i : Nat),
      executeBeforeGo 0 hs req = (res, evs) → Ev.afterRun i ∉ evs := by
    intro hs req res evs i heq hmem
    have : evs = (executeBeforeGo 0 hs req).2 := by rw [heq]
    rw [this] at hmem
    obtain ⟨j, hj⟩ := before_events_shape hs req _ hmem
    cases hj
  refine ⟨?_, ?_, ?_, ?_, ?_⟩
  · intro cfg opts handler store req0 now h
    have hres : wrapHandler cfg opts handler store req0 now =
        (APIError.forbidden "Forbidden" none now, store, []) := by
      simp [wrapHandler, h]
    exact ⟨hres, by rw [hres]; intro i hmem; simp at hmem⟩
  · intro cfg opts handler store req0 now t evs hexp hbefore
    have hres : wrapHandler cfg opts handler store req0 now =
        (funnelCatch t opts now, store, evs) := by
      unfold wrapHandler
      rw [if_neg hexp, hbefore]
    refine ⟨hres, ?_⟩
    rw [hres]
    intro i
    exact beforeNoAfter cfg.beforeHandlers _ _ evs i hbefore
  · intro cfg opts handler store req0 now resp evs hexp hbefore
    have hres : wrapHandler cfg opts handler store req0 now = (resp, store, evs) := by
      unfold wrapHandler
      rw [if_neg hexp, hbefore]
    refine ⟨hres, ?_⟩
    rw [hres]
    intro i
    exact beforeNoAfter cfg.beforeHandlers _ _ evs i hbefore
  · intro cfg opts handler store req0 now req2 evs respA evA hexp hbefore hauthres
    have hres : wrapHandler cfg opts handler store req0 now = (respA, store, evs ++ evA) := by
      unfold wrapHandler
      rw [if_neg hexp, hbefore]
      dsimp only
      rw [hauthres]
    refine ⟨hres, ?_⟩
    rw [hres]
    intro i hmem
    rcases List.mem_append.mp hmem with hmem | hmem
    · exact beforeNoAfter cfg.beforeHandlers _ _ evs i hbefore hmem
    · have hevA : evA = (runAuthStage cfg opts req2 now).2 := by rw [hauthres]
      rw [hevA] at hmem
      have := runAuthStage_events cfg opts req2 now _ hmem
      cases this
  · intro cfg opts handler store req0 now req2 evs req3 evA t store2 evH hexp hbefore hauthok hinv
    have hres : wrapHandler cfg opts handler store req0 now =
        (funnelCatch t opts now, store2,
          evs ++ evA ++ ((bodyDecodeStage opts req3).2 ++ evH)) := by
      unfold wrapHandler
      rw [if_neg hexp, hbefore]
      dsimp only
      rw [hauthok]
      dsimp only
      unfold postAuthPipeline
      dsimp only
      rw [hinv]
    refine ⟨by rw [hres], by rw [hres], ?_⟩
    rw [hres]
    intro i hmem
    rcases List.mem_append.mp hmem with hmem | hmem
    · rcases List.mem_append.mp hmem with hmem | hmem
      · exact beforeNoAfter cfg.beforeHandlers _ _ evs i hbefore hmem
      · have hevA : evA = (runAuthStage cfg opts req2 now).2 := by rw [hauthok]
        rw [hevA] at hmem
        have := runAuthStage_events cfg opts req2 now _ hmem
        cases this
    · rcases List.mem_append.mp hmem with hmem | hmem
      · have := bodyDecodeStage_events opts req3 _ hmem
        cases this
      · have hevH : evH = (invokeHandlerStage cfg opts handler store
            (bodyDecodeStage opts req3).1 (Int.ofNat now)).2.2 := by rw [hinv]
        rw [hevH] at hmem
        have := invokeHandlerStage_events cfg opts handler store
          (bodyDecodeStage opts req3).1 (Int.ofNat now) _ hmem
        cases this

/-- A router configuration whose single after-middleware throws. -/
def throwingFinallyCfg : RouterConfig :=
  ⟨[], [fun _ _ => .error (.thrownErr "boom")], none, none⟩

/-- C10 counterexample: when an after-middleware itself throws, the 500
error-funnel response is returned even though an after-middleware handler WAS
invoked — so "the 500 error-funnel response is returned without any
after-middleware handler being invoked" is false as a universal statement. -/
theorem afterChain_funnel_after_middleware_ran :
    (wrapHandler throwingFinallyCfg (mkOpts none) (fun _ => .ok (.value .null)) [] baseReq 0).1 =
      APIError.internalServerError "boom" none 0 ∧
    Ev.afterRun 0 ∈
      (wrapHandler throwingFinallyCfg (mkOpts none) (fun _ => .ok (.value .null)) [] baseReq 0).2.2 := by
  constructor
  · rfl
  · have h : (wrapHandler throwingFinallyCfg (mkOpts none)
        (fun _ => .ok (.value .null)) [] baseReq 0).2.2 =
        [Ev.handlerRun, Ev.afterRun 0] := rfl
    rw [h]
    exact List.mem_cons_of_mem _ (List.mem_cons_self _ _)

/-- Witness for C10: a before-middleware `Response` short-circuit on a
concrete configuration carries no after-middleware event even though an
after-middleware is registered. -/
theorem afterChain_requires_normalization_witness :
    wrapHandler ⟨[fun _ => .ok (.inr ⟨204, "", .rawB ""⟩)], [fun r _ => .ok r], none, none⟩
      (mkOpts none) (fun _ => .ok (.value .null)) [] baseReq 1 =
      (⟨204, "", .rawB ""⟩, [], [Ev.beforeRun 0]) :=
  (afterChain_requires_normalization.2.2.1
    ⟨[fun _ => .ok (.inr ⟨204, "", .rawB ""⟩)], [fun r _ => .ok r], none, none⟩
    (mkOpts none) (fun _ => .ok (.value .null)) [] baseReq 1 ⟨204, "", .rawB ""⟩ [Ev.beforeRun 0]
    (by simp [mkOpts]) rfl).1

theorem isDigitChar_digitChar (n : Nat) : isDigitChar (digitChar n) = true := by
  have h10 : ∀ k, k < 10 → isDigitChar (Char.ofNat (48 + k)) = true := by decide
  exact h10 (n % 10) (Nat.mod_lt n (by decide))

/-- Every timestamp the model's `toISOString` produces has the ISO-8601
extended layout. -/
theorem isIso8601_toISOString (ms : Nat) : isIso8601Timestamp (toISOString ms) = true := by
  unfold toISOString
  dsimp only
  split
  · simp [isIso8601Timestamp, isIsoBasic, pad4, pad3, pad2, isDigitChar_digitChar]
  · simp [isIso8601Timestamp, isIsoExpanded, pad6, pad3, pad2, isDigitChar_digitChar]

/-- The 401 produced by the pipeline for an auth-required route with a
`text/plain` response-content-type override. -/
def nonJsonErrorResp : Resp :=
  (wrapHandler emptyCfg ⟨"GET", "/x", none, true, false, false, none, some "text/plain", none⟩
    (fun _ => .ok (.value Json.null)) [] baseReq 0).1

/-- C9 counterexample: an error response produced by the pipeline with a
non-JSON `responseContentType` override (here the 401 of an auth-required
route) has a raw coerced body, not a JSON body deserializing to the error
object. -/
theorem errorBody_nonJson_counterexample :
    nonJsonErrorResp.status = 401 ∧
    nonJsonErrorResp.contentType = "text/plain" ∧
    nonJsonErrorResp.body = .rawB "[object Object]" ∧
    (∀ j, nonJsonErrorResp.body ≠ .jsonB j) := by
  refine ⟨rfl, rfl, rfl, ?_⟩
  intro j h
  have e : nonJsonErrorResp.body = Body.rawB "[object Object]" := rfl
  rw [e] at h
  cases h

/-- C9 (amended): every error response produced with the default JSON content
type (the 404 and unexposed-403 paths always use it; every `APIError` helper
and the 401/500 paths use it when `responseContentType` is not overridden)
has HTTP status equal to the helper's code and a JSON body that deserializes
to an object with exactly the fields `error: true`, the string `message`, the
numeric `statusCode` equal to the response's HTTP status, and a `timestamp`
in ISO-8601 layout; with a non-JSON override the body is instead the raw
string coercion of the error object. -/
theorem errorBody_shape (code : Nat) (msg : String) (now : Nat) :
    (createErrorResponse code msg none now).status = code ∧
    (createErrorResponse code msg none now).contentType = CONTENT_TYPES_JSON ∧
    (createErrorResponse code msg none now).body = .jsonB (Json.obj
      [("error", .bool true), ("message", .str msg),
       ("statusCode", .num code), ("timestamp", .str (toISOString now))]) ∧
    isIso8601Timestamp (toISOString now) = true ∧
    createErrorResponse code msg (some CONTENT_TYPES_JSON) now =
      createErrorResponse code msg none now ∧
    APIError.notFound msg none now = createErrorResponse 404 msg none now ∧
    APIError.forbidden msg none now = createErrorResponse 403 msg none now ∧
    APIError.unauthorized msg none now = createErrorResponse 401 msg none now ∧
    APIError.internalServerError msg none now = createErrorResponse 500 msg none now :=
  ⟨createErrorResponse_status code msg none now, rfl, rfl, isIso8601_toISOString now,
   rfl, rfl, rfl, rfl, rfl⟩
